import Mathlib

/-
Verification of the Photo-Editor canvas component (src/components/Canvas.tsx).

The component is React glue around a fabric.js canvas.  We shallowly embed the
editor as a state machine:

* `Obj` models a fabric object with the attributes the component reads or
  writes (position, size, scale, style, text attributes, filters, the line
  endpoints of grid lines, and the interaction flags `selectable`, `evented`,
  `excludeFromExport`).
* `Scene` models the live canvas contents (object list in z-order, background
  color, dimensions).
* `SerializedObj` / `SerializedScene` model the value of `canvas.toJSON()`:
  fabric's `toJSON` drops objects with `excludeFromExport = true` and does not
  record the interaction flags; `loadFromJSON` restores objects with the
  default interaction flags.  `JSON.stringify` is a deterministic function of
  this value, so byte-identity of serialized snapshots is equality of
  `SerializedScene` values; `jsonStringify` renders the value to a string.
* `EditorState` models the React state: the canvas plus the `history` and
  `redoStack` arrays of serialized snapshots.  JS arrays push/pop at the end;
  we represent both stacks top-first (head = most recently pushed), which is
  an order-reversing but behavior-preserving representation.
* Each handler of the component becomes a function on `EditorState`.  The
  `useEffect` at Canvas.tsx:428 registers `saveState` on `object:added`,
  `object:removed` and `object:modified`, so `canvasAdd` (the model of
  `canvas.add` once that handler is installed) performs the add and then the
  event-triggered `saveState`.  `loadFromJSON` is modeled as an atomic
  replacement of the canvas contents.  Asynchronous callbacks (FileReader,
  image loading) run on the single-threaded event queue and are modeled as
  running immediately.
-/

namespace PhotoEditor

inductive ObjKind where
  | rect
  | circle
  | itext
  | image
  | line
deriving DecidableEq, Repr

inductive FilterKind where
  | grayscale
  | sepia
deriving DecidableEq, Repr

/-- A fabric object, restricted to the attributes Canvas.tsx manipulates. -/
structure Obj where
  kind : ObjKind
  left : ℚ := 0
  top : ℚ := 0
  width : ℚ := 0
  height : ℚ := 0
  radius : ℚ := 0
  fill : String := ""
  stroke : String := ""
  scaleX : ℚ := 1
  scaleY : ℚ := 1
  text : String := ""
  fontSize : ℚ := 0
  fontFamily : String := ""
  textAlign : String := ""
  filters : List FilterKind := []
  x1 : ℚ := 0
  y1 : ℚ := 0
  x2 : ℚ := 0
  y2 : ℚ := 0
  selectable : Bool := true
  evented : Bool := true
  excludeFromExport : Bool := false
deriving DecidableEq, Repr

/-- The live canvas: objects in z-order (last = topmost), background, size. -/
structure Scene where
  objects : List Obj
  background : String
  width : ℚ
  height : ℚ
deriving DecidableEq, Repr

/-- The attributes of one object as recorded by `canvas.toJSON()`.  The
interaction flags (`selectable`, `evented`, `excludeFromExport`) are not part
of fabric's default serialized form. -/
structure SerializedObj where
  kind : ObjKind
  left : ℚ
  top : ℚ
  width : ℚ
  height : ℚ
  radius : ℚ
  fill : String
  stroke : String
  scaleX : ℚ
  scaleY : ℚ
  text : String
  fontSize : ℚ
  fontFamily : String
  textAlign : String
  filters : List FilterKind
  x1 : ℚ
  y1 : ℚ
  x2 : ℚ
  y2 : ℚ
deriving DecidableEq, Repr

/-- The value of `canvas.toJSON()`. -/
structure SerializedScene where
  objects : List SerializedObj
  background : String
  width : ℚ
  height : ℚ
deriving DecidableEq, Repr

/-- Fabric exports an object iff `excludeFromExport` is false. -/
def exportable (o : Obj) : Bool := !o.excludeFromExport

def serializeObj (o : Obj) : SerializedObj :=
  { kind := o.kind, left := o.left, top := o.top, width := o.width,
    height := o.height, radius := o.radius, fill := o.fill, stroke := o.stroke,
    scaleX := o.scaleX, scaleY := o.scaleY, text := o.text,
    fontSize := o.fontSize, fontFamily := o.fontFamily,
    textAlign := o.textAlign, filters := o.filters,
    x1 := o.x1, y1 := o.y1, x2 := o.x2, y2 := o.y2 }

/-- `canvas.toJSON()`: serializes the exportable objects, in z-order, with the
canvas-level attributes. -/
def toJSON (s : Scene) : SerializedScene :=
  { objects := (s.objects.filter exportable).map serializeObj,
    background := s.background, width := s.width, height := s.height }

/-- Re-creating an object from its serialized form gives it the default
interaction flags. -/
def enlivenObj (j : SerializedObj) : Obj :=
  { kind := j.kind, left := j.left, top := j.top, width := j.width,
    height := j.height, radius := j.radius, fill := j.fill, stroke := j.stroke,
    scaleX := j.scaleX, scaleY := j.scaleY, text := j.text,
    fontSize := j.fontSize, fontFamily := j.fontFamily,
    textAlign := j.textAlign, filters := j.filters,
    x1 := j.x1, y1 := j.y1, x2 := j.x2, y2 := j.y2 }

/-- `canvas.loadFromJSON`: atomically replaces the canvas contents with the
objects of the payload. -/
def loadScene (j : SerializedScene) : Scene :=
  { objects := j.objects.map enlivenObj,
    background := j.background, width := j.width, height := j.height }

/-- `JSON.stringify` of a serialized scene: a deterministic rendering, so equal
serialized values give byte-identical output. -/
def jsonStringify (j : SerializedScene) : String := toString (repr j)

theorem serializeObj_enlivenObj (j : SerializedObj) :
    serializeObj (enlivenObj j) = j := rfl

theorem exportable_enlivenObj (j : SerializedObj) :
    exportable (enlivenObj j) = true := rfl

theorem filter_exportable_map_enliven (l : List SerializedObj) :
    (l.map enlivenObj).filter exportable = l.map enlivenObj := by
  induction l with
  | nil => rfl
  | cons a l ih =>
      simp only [List.map_cons, List.filter_cons, exportable_enlivenObj,
        if_true, ih]

theorem map_serialize_map_enliven (l : List SerializedObj) :
    (l.map enlivenObj).map serializeObj = l := by
  induction l with
  | nil => rfl
  | cons a l ih =>
      simp only [List.map_cons, serializeObj_enlivenObj, ih]

/-- Serializing a just-loaded scene reproduces the payload exactly. -/
theorem toJSON_loadScene (j : SerializedScene) : toJSON (loadScene j) = j := by
  cases j with
  | mk objs bg w h =>
      simp only [toJSON, loadScene, filter_exportable_map_enliven,
        map_serialize_map_enliven]

/-- The React state of the component: the fabric canvas plus the two snapshot
stacks.  `active` models `canvas.getActiveObject()` (mirrored by the React
`selectedObject` state) as an index into the object list.  Stacks are kept
top-first: the head is the most recently pushed snapshot (the end of the JS
array). -/
structure EditorState where
  canvas : Scene
  history : List SerializedScene
  redoStack : List SerializedScene
  active : Option Nat := none
deriving DecidableEq, Repr

/-- Canvas.tsx:74: push a snapshot of the current canvas and clear the redo
stack. -/
def saveState (st : EditorState) : EditorState :=
  { st with history := toJSON st.canvas :: st.history, redoStack := [] }

/-- Canvas.tsx:81: if more than one snapshot is stored, move the newest
snapshot onto the redo stack and load the one below it. -/
def undo (st : EditorState) : EditorState :=
  match st.history with
  | current :: prevState :: rest =>
      { st with canvas := loadScene prevState,
                history := prevState :: rest,
                redoStack := current :: st.redoStack }
  | _ => st

/-- Canvas.tsx:93: if the redo stack is nonempty, pop its newest snapshot,
push it back onto history and load it. -/
def redo (st : EditorState) : EditorState :=
  match st.redoStack with
  | nextState :: rest =>
      { st with canvas := loadScene nextState,
                history := nextState :: st.history,
                redoStack := rest }
  | _ => st

/-- `canvas.add` once the Canvas.tsx:428 effect has hooked `saveState` to
`object:added`: append the object (topmost z-order) and run the
event-triggered `saveState`. -/
def canvasAdd (o : Obj) (st : EditorState) : EditorState :=
  saveState { st with canvas :=
    { st.canvas with objects := st.canvas.objects ++ [o] } }

/-- The rectangle built in Canvas.tsx:104. -/
def newRect : Obj :=
  { kind := ObjKind.rect, width := 100, height := 100, fill := "#0000ff",
    left := 50, top := 50 }

/-- Canvas.tsx:102: add a rectangle, then the explicit `saveState` call (the
`object:added` event already saved once inside `canvasAdd`). -/
def addRectangle (st : EditorState) : EditorState :=
  saveState (canvasAdd newRect st)

/-- The circle built in Canvas.tsx:119. -/
def newCircle : Obj :=
  { kind := ObjKind.circle, radius := 50, fill := "#00ff00",
    left := 200, top := 200 }

/-- Canvas.tsx:117. -/
def addCircle (st : EditorState) : EditorState :=
  saveState (canvasAdd newCircle st)

/-- The text object built in Canvas.tsx:133. -/
def newText : Obj :=
  { kind := ObjKind.itext, text := "Edit me!", left := 300, top := 300,
    fontSize := 20, fill := "#000000" }

/-- Canvas.tsx:131. -/
def addText (st : EditorState) : EditorState :=
  saveState (canvasAdd newText st)

/-- The image object produced by `FabricImage.fromURL` followed by
`img.scaleToWidth(300)` for a source picture of natural size `w × h`:
`scaleToWidth` sets a uniform scale bringing the displayed width to 300. -/
def newImage (w h : ℚ) : Obj :=
  { kind := ObjKind.image, width := w, height := h,
    scaleX := 300 / w, scaleY := 300 / w }

/-- Canvas.tsx:192: once the file is decoded, scale the image to width 300,
add it, and run the explicit `saveState` (after the event-triggered one). -/
def handleImageUpload (w h : ℚ) (st : EditorState) : EditorState :=
  saveState (canvasAdd (newImage w h) st)

/-- The switch of Canvas.tsx:211: replace the whole filter list according to
the `filterType` string; an unknown name leaves the list alone (the switch
has no default case). -/
def filteredObj (filterType : String) (o : Obj) : Obj :=
  if filterType = "grayscale" then { o with filters := [FilterKind.grayscale] }
  else if filterType = "sepia" then { o with filters := [FilterKind.sepia] }
  else o

/-- Canvas.tsx:208: if the active object is an image, replace its filter list
according to the `filterType` string (the switch leaves the list alone on an
unknown name but still re-applies and saves), and save.  Otherwise nothing
happens. -/
def applyFilter (filterType : String) (st : EditorState) : EditorState :=
  match st.active with
  | some i =>
      match st.canvas.objects[i]? with
      | some o =>
          if o.kind = ObjKind.image then
            saveState { st with canvas :=
              { st.canvas with objects :=
                st.canvas.objects.set i (filteredObj filterType o) } }
          else st
      | none => st
  | none => st

inductive ColorProp where
  | fill
  | stroke
deriving DecidableEq, Repr

/-- Canvas.tsx:248: set `fill` or `stroke` on the selected object and save. -/
def updateObjectColor (prop : ColorProp) (v : String) (st : EditorState) :
    EditorState :=
  match st.active with
  | some i =>
      match st.canvas.objects[i]? with
      | some o =>
          let o' := match prop with
            | ColorProp.fill => { o with fill := v }
            | ColorProp.stroke => { o with stroke := v }
          saveState { st with canvas :=
            { st.canvas with objects := st.canvas.objects.set i o' } }
      | none => st
  | none => st

/-- Canvas.tsx:267. -/
def gridSize : ℚ := 50

/-- JS `Math.round`: round to nearest, ties toward positive infinity. -/
def jsRound (x : ℚ) : ℤ := ⌊x + 1 / 2⌋

/-- The coordinate snapping of the Canvas.tsx:296 `object:moving` handler:
`Math.round(v / gridSize) * gridSize`. -/
def snapCoord (x : ℚ) : ℚ := (jsRound (x / gridSize) : ℚ) * gridSize

/-- One `object:moving` frame during a drag of object `i`: fabric has moved
the target to `p`; the handler immediately snaps both coordinates. -/
def objectMoving (i : Nat) (p : ℚ × ℚ) (s : Scene) : Scene :=
  match s.objects[i]? with
  | some o =>
      { s with objects :=
          s.objects.set i { o with left := snapCoord p.1, top := snapCoord p.2 } }
  | none => s

/-- A whole drag gesture of object `i` through the pointer positions `path`:
each frame fires `object:moving` (snapped, no history write), and releasing
the pointer fires `object:modified`, whose Canvas.tsx:428 handler calls
`saveState` once. -/
def dragObject (i : Nat) (path : List (ℚ × ℚ)) (st : EditorState) :
    EditorState :=
  let dragged := path.foldl (fun s p => objectMoving i p s) st.canvas
  saveState { st with canvas := dragged }

/-- One grid line of Canvas.tsx:274/286: stroked `#e0e0e0`, not selectable,
not evented, excluded from export. -/
def gridLine (a b c d : ℚ) : Obj :=
  { kind := ObjKind.line, x1 := a, y1 := b, x2 := c, y2 := d,
    stroke := "#e0e0e0", selectable := false, evented := false,
    excludeFromExport := true }

/-- The indices of the `for (let i = 0; i <= len / gridSize; i++)` loop. -/
def gridSteps (len : ℚ) : List Nat :=
  if 0 ≤ len then List.range (Int.toNat ⌊len / gridSize⌋ + 1) else []

/-- All grid lines drawn by Canvas.tsx:266: vertical lines first, then
horizontal ones. -/
def gridLines (w h : ℚ) : List Obj :=
  (gridSteps w).map
      (fun (i : Nat) => gridLine ((i : ℚ) * gridSize) 0 ((i : ℚ) * gridSize) h) ++
    (gridSteps h).map
      (fun (i : Nat) => gridLine 0 ((i : ℚ) * gridSize) w ((i : ℚ) * gridSize))

/-- Canvas.tsx:266 `drawGrid`: adds the grid lines to the canvas (the
`object:added` handler is not yet installed when this runs during
initialization) and installs the `object:moving` snap handler. -/
def drawGrid (s : Scene) : Scene :=
  { s with objects := s.objects ++ gridLines s.width s.height }

/-- The canvas created in Canvas.tsx:51. -/
def emptyScene : Scene :=
  { objects := [], background := "#ffffff", width := 800, height := 600 }

/-- The state after the initialization effect (Canvas.tsx:49): empty canvas,
grid drawn, one initial snapshot saved. -/
def initState : EditorState :=
  saveState { canvas := drawGrid emptyScene, history := [], redoStack := [],
              active := none }

/-- Canvas.tsx:305 `saveProject`: the downloaded file contents. -/
def saveProject (st : EditorState) : String := jsonStringify (toJSON st.canvas)

/-- The outcome of the Canvas.tsx:317 `loadProject` handler.  `formatError`
is the outcome the specification prescribes for malformed input (a handled
error surfaced to the user); the handler never produces it. -/
inductive LoadOutcome where
  | loaded (st : EditorState)
  | formatError (st : EditorState)
  | uncaughtException (st : EditorState)
deriving DecidableEq, Repr

/-- Whether a load outcome surfaces a `FormatError` to the user, as the
specification requires for malformed input. -/
def surfacedFormatError : LoadOutcome → Bool
  | LoadOutcome.formatError _ => true
  | _ => false

/-- Canvas.tsx:317 `loadProject`.  The input is the parse of the selected
file's text: `some j` when `JSON.parse` accepts it, `none` when it throws.
On success the canvas is replaced and the callback calls `saveState`; on a
parse failure the exception escapes (there is no try/catch), before any
mutation of the canvas or the stacks. -/
def loadProject (input : Option SerializedScene) (st : EditorState) :
    LoadOutcome :=
  match input with
  | some j => LoadOutcome.loaded (saveState { st with canvas := loadScene j })
  | none => LoadOutcome.uncaughtException st

/-- The state-mutating commands of the toolbar and panels: shape insert, text
insert, image add, filter apply, property edit. -/
inductive Command where
  | insertRect
  | insertCircle
  | insertText
  | addImage (w h : ℚ)
  | filterApply (filterType : String)
  | editColor (prop : ColorProp) (v : String)
deriving DecidableEq, Repr

def applyCommand : Command → EditorState → EditorState
  | Command.insertRect, st => addRectangle st
  | Command.insertCircle, st => addCircle st
  | Command.insertText, st => addText st
  | Command.addImage w h, st => handleImageUpload w h st
  | Command.filterApply ft, st => applyFilter ft st
  | Command.editColor p v, st => updateObjectColor p v st

def runCommands (cs : List Command) (st : EditorState) : EditorState :=
  cs.foldl (fun s c => applyCommand c s) st

def undoN : Nat → EditorState → EditorState
  | 0, st => st
  | n + 1, st => undoN n (undo st)

def redoN : Nat → EditorState → EditorState
  | 0, st => st
  | n + 1, st => redoN n (redo st)

/-! ### Generic laws of the snapshot stacks -/

theorem undoN_succ (n : Nat) (st : EditorState) :
    undoN (n + 1) st = undo (undoN n st) := by
  induction n generalizing st with
  | zero => rfl
  | succ n ih =>
      show undoN (n + 1) (undo st) = undo (undoN (n + 1) st)
      rw [ih (undo st)]
      rfl

theorem undoN_add (m n : Nat) (st : EditorState) :
    undoN (m + n) st = undoN m (undoN n st) := by
  induction n generalizing st with
  | zero => rfl
  | succ n ih =>
      show undoN (m + n) (undo st) = undoN m (undoN n (undo st))
      exact ih (undo st)

theorem redoN_add (m n : Nat) (st : EditorState) :
    redoN (m + n) st = redoN m (redoN n st) := by
  induction n generalizing st with
  | zero => rfl
  | succ n ih =>
      show redoN (m + n) (redo st) = redoN m (redoN n (redo st))
      exact ih (redo st)

theorem undo_cons_cons {st : EditorState} {a b : SerializedScene}
    {t : List SerializedScene} (hh : st.history = a :: b :: t) :
    undo st = { st with canvas := loadScene b, history := b :: t,
                        redoStack := a :: st.redoStack } := by
  unfold undo
  rw [hh]

theorem redo_cons {st : EditorState} {a : SerializedScene}
    {r : List SerializedScene} (hh : st.redoStack = a :: r) :
    redo st = { st with canvas := loadScene a, history := a :: st.history,
                        redoStack := r } := by
  unfold redo
  rw [hh]

theorem undo_of_short {st : EditorState} (h : st.history.length ≤ 1) :
    undo st = st := by
  unfold undo
  match hh : st.history with
  | [] => rfl
  | [a] => rfl
  | a :: b :: t => rw [hh] at h; simp at h

theorem undoN_of_short {st : EditorState} (h : st.history.length ≤ 1) :
    ∀ n, undoN n st = st := by
  intro n
  induction n with
  | zero => rfl
  | succ n ih =>
      show undoN n (undo st) = st
      rw [undo_of_short h]
      exact ih

theorem redo_of_empty {st : EditorState} (h : st.redoStack = []) :
    redo st = st := by
  unfold redo
  rw [h]

theorem redoN_of_empty {st : EditorState} (h : st.redoStack = []) :
    ∀ n, redoN n st = st := by
  intro n
  induction n with
  | zero => rfl
  | succ n ih =>
      show redoN n (redo st) = st
      rw [redo_of_empty h]
      exact ih

/-- The invariant linking the live canvas to the stored snapshots: the newest
history entry is always the serialization of the current canvas. -/
def headOK (st : EditorState) : Prop :=
  ∃ t, st.history = toJSON st.canvas :: t

theorem headOK_saveState (st : EditorState) : headOK (saveState st) :=
  ⟨st.history, rfl⟩

theorem headOK_undo {st : EditorState} (h : headOK st) : headOK (undo st) := by
  obtain ⟨t, ht⟩ := h
  match t, ht with
  | [], ht =>
      rw [undo_of_short (by rw [ht]; rfl)]
      exact ⟨[], ht⟩
  | b :: r, ht =>
      rw [undo_cons_cons ht]
      exact ⟨r, by rw [toJSON_loadScene]⟩

theorem headOK_undoN (n : Nat) {st : EditorState} (h : headOK st) :
    headOK (undoN n st) := by
  induction n generalizing st with
  | zero => exact h
  | succ n ih => exact ih (headOK_undo h)

theorem undoN_hist_length (n : Nat) (st : EditorState)
    (h : n + 1 ≤ st.history.length) :
    (undoN n st).history.length + n = st.history.length := by
  induction n generalizing st with
  | zero => rfl
  | succ n ih =>
      match hh : st.history with
      | [] => rw [hh] at h; simp at h
      | [a] => rw [hh] at h; simp at h
      | a :: b :: t =>
          have hu : (undo st).history = b :: t := by
            rw [undo_cons_cons hh]
          have hlen2 : n + 1 ≤ (undo st).history.length := by
            rw [hu]
            rw [hh] at h
            simp only [List.length_cons] at h ⊢
            omega
          have hthis := ih (undo st) hlen2
          show (undoN n (undo st)).history.length + (n + 1) = (a :: b :: t).length
          rw [hu] at hthis
          simp only [List.length_cons] at hthis ⊢
          omega

/-- States equal on both stacks and on the serialized canvas (the live canvas
may differ in non-exported objects, which no snapshot records). -/
def EquivS (a b : EditorState) : Prop :=
  a.history = b.history ∧ a.redoStack = b.redoStack ∧
    toJSON a.canvas = toJSON b.canvas

theorem equivS_refl (a : EditorState) : EquivS a a := ⟨rfl, rfl, rfl⟩

theorem equivS_trans {a b c : EditorState} (h1 : EquivS a b)
    (h2 : EquivS b c) : EquivS a c :=
  ⟨h1.1.trans h2.1, h1.2.1.trans h2.2.1, h1.2.2.trans h2.2.2⟩

theorem equivS_undo {a b : EditorState} (h : EquivS a b) :
    EquivS (undo a) (undo b) := by
  obtain ⟨h1, h2, h3⟩ := h
  match hb : b.history with
  | [] =>
      rw [@undo_of_short a (by rw [h1, hb]; simp),
        @undo_of_short b (by rw [hb]; simp)]
      exact ⟨h1, h2, h3⟩
  | [x] =>
      rw [@undo_of_short a (by rw [h1, hb]; simp),
        @undo_of_short b (by rw [hb]; simp)]
      exact ⟨h1, h2, h3⟩
  | x :: y :: r =>
      rw [undo_cons_cons hb, undo_cons_cons (h1.trans hb)]
      exact ⟨rfl, by rw [h2], rfl⟩

theorem equivS_redo {a b : EditorState} (h : EquivS a b) :
    EquivS (redo a) (redo b) := by
  obtain ⟨h1, h2, h3⟩ := h
  match hb : b.redoStack with
  | [] =>
      rw [redo_of_empty hb, redo_of_empty (h2.trans hb)]
      exact ⟨h1, h2, h3⟩
  | x :: r =>
      rw [redo_cons hb, redo_cons (h2.trans hb)]
      exact ⟨by rw [h1], rfl, rfl⟩

theorem equivS_redoN (n : Nat) {a b : EditorState} (h : EquivS a b) :
    EquivS (redoN n a) (redoN n b) := by
  induction n generalizing a b with
  | zero => exact h
  | succ n ih => exact ih (equivS_redo h)

/-- One redo cancels the undo just performed, up to the serialized canvas. -/
theorem equivS_redo_undo {st : EditorState} {b : SerializedScene}
    {t : List SerializedScene}
    (hh : st.history = toJSON st.canvas :: b :: t) :
    EquivS (redo (undo st)) st := by
  rw [undo_cons_cons hh]
  refine ⟨?_, ?_, ?_⟩
  · show toJSON st.canvas :: b :: t = st.history
    rw [hh]
  · rfl
  · show toJSON (loadScene (toJSON st.canvas)) = toJSON st.canvas
    rw [toJSON_loadScene]

/-- As long as enough snapshots are stored, `n` redos after `n` undos restore
the stacks exactly and the canvas up to serialization. -/
theorem redoN_undoN_restore (n : Nat) (st : EditorState) (hok : headOK st)
    (hlen : n + 1 ≤ st.history.length) :
    EquivS (redoN n (undoN n st)) st := by
  induction n generalizing st with
  | zero => exact equivS_refl st
  | succ n ih =>
      rw [undoN_succ]
      show EquivS (redoN n (redo (undo (undoN n st)))) st
      have hok' : headOK (undoN n st) := headOK_undoN n hok
      have hlen' : (undoN n st).history.length + n = st.history.length :=
        undoN_hist_length n st (by omega)
      obtain ⟨t, ht⟩ := hok'
      match t, ht with
      | [], ht =>
          rw [ht] at hlen'
          simp only [List.length_cons, List.length_nil] at hlen'
          omega
      | b :: r, ht =>
          have hcancel : EquivS (redo (undo (undoN n st))) (undoN n st) :=
            equivS_redo_undo ht
          exact equivS_trans (equivS_redoN n hcancel) (ih st hok (by omega))

/-- Main undo/redo law: starting from a state with an empty redo stack whose
newest snapshot matches the canvas, `n` undos followed by `n` redos reproduce
the serialized canvas, for every `n`. -/
theorem undo_redo_roundtrip (n : Nat) (st : EditorState) (hok : headOK st)
    (hred : st.redoStack = []) :
    toJSON (redoN n (undoN n st)).canvas = toJSON st.canvas := by
  rcases Nat.lt_or_ge st.history.length (n + 1) with hlt | hge
  · -- the history bottoms out: the last undos and redos are no-ops
    have hpos : 1 ≤ st.history.length := by
      obtain ⟨t, ht⟩ := hok; rw [ht]; simp
    have hsplit : n = (n - (st.history.length - 1)) + (st.history.length - 1) := by
      omega
    have hshort : (undoN (st.history.length - 1) st).history.length ≤ 1 := by
      have := undoN_hist_length (st.history.length - 1) st (by omega)
      omega
    have h1 : undoN n st = undoN (st.history.length - 1) st := by
      conv_lhs => rw [hsplit]
      rw [undoN_add]
      exact undoN_of_short hshort _
    have hres : EquivS (redoN (st.history.length - 1)
        (undoN (st.history.length - 1) st)) st :=
      redoN_undoN_restore (st.history.length - 1) st hok (by omega)
    have hstack : (redoN (st.history.length - 1)
        (undoN (st.history.length - 1) st)).redoStack = [] := by
      rw [hres.2.1, hred]
    rw [h1]
    conv_lhs => rw [hsplit]
    rw [redoN_add]
    rw [redoN_of_empty hstack]
    exact hres.2.2
  · exact (redoN_undoN_restore n st hok hge).2.2

/-! ### The invariant along command execution -/

def Inv (st : EditorState) : Prop := headOK st ∧ st.redoStack = []

theorem inv_saveState (st : EditorState) : Inv (saveState st) :=
  ⟨⟨st.history, rfl⟩, rfl⟩

theorem inv_applyFilter (ft : String) (st : EditorState) (h : Inv st) :
    Inv (applyFilter ft st) := by
  unfold applyFilter
  split
  · split
    · split
      · exact inv_saveState _
      · exact h
    · exact h
  · exact h

theorem inv_updateObjectColor (p : ColorProp) (v : String) (st : EditorState)
    (h : Inv st) : Inv (updateObjectColor p v st) := by
  unfold updateObjectColor
  split
  · split
    · exact inv_saveState _
    · exact h
  · exact h

theorem inv_applyCommand (c : Command) (st : EditorState) (h : Inv st) :
    Inv (applyCommand c st) := by
  cases c with
  | insertRect => exact inv_saveState _
  | insertCircle => exact inv_saveState _
  | insertText => exact inv_saveState _
  | addImage w hh => exact inv_saveState _
  | filterApply ft => exact inv_applyFilter ft st h
  | editColor p v => exact inv_updateObjectColor p v st h

theorem inv_runCommands (cs : List Command) (st : EditorState) (h : Inv st) :
    Inv (runCommands cs st) := by
  induction cs generalizing st with
  | nil => exact h
  | cons c cs ih => exact ih (applyCommand c st) (inv_applyCommand c st h)

theorem inv_initState : Inv initState := inv_saveState _

/-! ### Claim C1 -/

/-- C1: for every sequence of N state-mutating commands (shape insert, text
insert, image add, filter apply, property edit) executed from the initial
state, invoking `undo` N times followed by `redo` N times leaves the editor's
serialized canvas state byte-identical to the state immediately before the
first undo. -/
theorem C1_undoN_redoN_roundtrip (cs : List Command) :
    jsonStringify (toJSON (redoN cs.length
        (undoN cs.length (runCommands cs initState))).canvas) =
      jsonStringify (toJSON (runCommands cs initState).canvas) := by
  have h := inv_runCommands cs initState inv_initState
  exact congrArg jsonStringify (undo_redo_roundtrip cs.length _ h.1 h.2)

/-! ### Claim C2 -/

/-- C2: every new command records its snapshot through `saveState`, which
empties the redo stack, so a subsequent `redo` is a no-op that changes
neither the canvas nor the history or redo stacks. -/
theorem C2_saveState_clears_redo (st : EditorState) :
    (saveState st).redoStack = [] ∧ redo (saveState st) = saveState st :=
  ⟨rfl, rfl⟩

/-! ### Claim C3 -/

/-- C3: when the editor holds at most its initial snapshot, `undo` is a
non-fatal no-op: canvas, history stack and redo stack are all unchanged. -/
theorem C3_undo_noop (st : EditorState) (h : st.history.length ≤ 1) :
    undo st = st :=
  undo_of_short h

theorem C3_witness :
    initState.history.length ≤ 1 ∧ undo initState = initState :=
  ⟨Nat.le_refl 1, C3_undo_noop initState (Nat.le_refl 1)⟩

/-! ### Claim C5 -/

/-- C5 counterexample: on malformed input (text rejected by `JSON.parse`) the
load does not surface a `FormatError` to the user; the exception escapes
unhandled, refuting the claim as stated. -/
theorem C5_cex_no_formatError :
    surfacedFormatError (loadProject none initState) = false := rfl

/-- C5 (amended): on input that fails JSON parsing, `loadProject` ends in an
uncaught exception; the canvas, history and redo stacks are left completely
unchanged (the failure happens before any mutation), but no `FormatError` is
surfaced to the user — the handler has no error handling at all. -/
theorem C5_load_malformed_unchanged (st : EditorState) :
    loadProject none st = LoadOutcome.uncaughtException st ∧
      surfacedFormatError (loadProject none st) = false :=
  ⟨rfl, rfl⟩

/-! ### Claim C7 -/

/-- C7 counterexample: invoking the rectangle-insert action twice in
succession inserts two objects (one per invocation), so the action is not
idempotent under repeated invocation. -/
theorem C7_cex_double_insert :
    (addRectangle (addRectangle initState)).canvas.objects.length =
        initState.canvas.objects.length + 2 ∧
      addRectangle (addRectangle initState) ≠ addRectangle initState := by
  constructor
  · simp [addRectangle, canvasAdd, saveState]
  · intro heq
    have h := congrArg (fun s => s.canvas.objects.length) heq
    simp [addRectangle, canvasAdd, saveState] at h

/-- C7 (amended): shape- and text-insert toolbar actions are not idempotent:
each invocation inserts exactly one new object, so two rapid invocations
insert two objects. -/
theorem C7_insert_once_per_invocation (st : EditorState) :
    (addRectangle st).canvas.objects.length = st.canvas.objects.length + 1 ∧
      (addCircle st).canvas.objects.length = st.canvas.objects.length + 1 ∧
      (addText st).canvas.objects.length = st.canvas.objects.length + 1 ∧
      (addRectangle (addRectangle st)).canvas.objects.length =
        st.canvas.objects.length + 2 := by
  refine ⟨?_, ?_, ?_, ?_⟩ <;> simp [addRectangle, addCircle, addText,
    canvasAdd, saveState]

/-! ### Claim C4 -/

/-- A valid scene containing one grid line (every real session's canvas
contains thirty of them). -/
def gridLineScene : Scene :=
  { objects := [gridLine 0 0 0 600], background := "#ffffff",
    width := 800, height := 600 }

/-- C4 counterexample: serialization drops objects with
`excludeFromExport = true`, so the save/load round trip does not reconstruct
a scene with an identical object set — the grid line disappears. -/
theorem C4_cex_roundtrip_drops_excluded :
    loadScene (toJSON gridLineScene) ≠ gridLineScene := by
  intro heq
  have h := congrArg (fun s => s.objects.length) heq
  simp [gridLineScene, toJSON, loadScene, gridLine, exportable] at h

/-- C4 (amended): the save/load round trip reconstructs the scene exactly —
identical object set, z-order and attributes — for every scene whose objects
are all exportable and carry the default interaction flags; objects with
`excludeFromExport = true` are dropped by serialization. -/
theorem C4_roundtrip_on_exportable (s : Scene)
    (h : ∀ o ∈ s.objects, o.excludeFromExport = false ∧
      o.selectable = true ∧ o.evented = true) :
    loadScene (toJSON s) = s := by
  cases s with
  | mk objs bg w ht =>
      simp only [toJSON, loadScene]
      have hobjs : ∀ o ∈ objs, o.excludeFromExport = false ∧
          o.selectable = true ∧ o.evented = true := h
      congr 1
      induction objs with
      | nil => rfl
      | cons a l ih =>
          obtain ⟨h1, h2, h3⟩ := hobjs a (by simp)
          have hexp : exportable a = true := by
            simp [exportable, h1]
          have ha : enlivenObj (serializeObj a) = a := by
            cases a
            simp only [Obj.mk.injEq] at h1 h2 h3 ⊢
            simp [enlivenObj, serializeObj, h1, h2, h3]
          simp only [List.filter_cons, hexp, if_true, List.map_cons, ha]
          have hrest := ih (fun o ho => hobjs o (by simp [ho]))
            (fun o ho => hobjs o (by simp [ho]))
          rw [hrest]

/-- A scene of one freshly inserted rectangle: all flags at their defaults. -/
def demoScene : Scene :=
  { objects := [newRect], background := "#ffffff", width := 800,
    height := 600 }

theorem C4_witness :
    (∀ o ∈ demoScene.objects, o.excludeFromExport = false ∧
        o.selectable = true ∧ o.evented = true) ∧
      loadScene (toJSON demoScene) = demoScene := by
  have hmem : ∀ o ∈ demoScene.objects, o.excludeFromExport = false ∧
      o.selectable = true ∧ o.evented = true := by
    intro o ho
    simp only [demoScene, List.mem_singleton] at ho
    subst ho
    exact ⟨rfl, rfl, rfl⟩
  exact ⟨hmem, C4_roundtrip_on_exportable demoScene hmem⟩

/-! ### Claim C6 -/

theorem jsRound_dist (x : ℚ) : |x - (jsRound x : ℚ)| ≤ 1 / 2 := by
  have h1 : ((⌊x + 1 / 2⌋ : ℤ) : ℚ) ≤ x + 1 / 2 := Int.floor_le _
  have h2 : x + 1 / 2 < ((⌊x + 1 / 2⌋ : ℤ) : ℚ) + 1 := Int.lt_floor_add_one _
  rw [abs_le]
  unfold jsRound
  constructor <;> linarith

/-- The snapped coordinate is a multiple of the grid size. -/
theorem snapCoord_multiple (x : ℚ) :
    ∃ k : ℤ, snapCoord x = (k : ℚ) * gridSize :=
  ⟨jsRound (x / gridSize), rfl⟩

/-- The snapped coordinate is a nearest multiple: at most half a grid cell
away from the original coordinate. -/
theorem snapCoord_dist (x : ℚ) : |x - snapCoord x| ≤ gridSize / 2 := by
  have h := jsRound_dist (x / gridSize)
  have key : x - snapCoord x =
      gridSize * (x / gridSize - (jsRound (x / gridSize) : ℚ)) := by
    unfold snapCoord gridSize
    ring
  rw [key, abs_mul, abs_of_nonneg (by norm_num [gridSize] : (0 : ℚ) ≤ gridSize)]
  have hmul : gridSize * |x / gridSize - (jsRound (x / gridSize) : ℚ)| ≤
      gridSize * (1 / 2) :=
    mul_le_mul_of_nonneg_left h (by norm_num [gridSize])
  calc gridSize * |x / gridSize - (jsRound (x / gridSize) : ℚ)|
      ≤ gridSize * (1 / 2) := hmul
    _ = gridSize / 2 := by norm_num [gridSize]

theorem objectMoving_length (i : Nat) (p : ℚ × ℚ) (s : Scene) :
    (objectMoving i p s).objects.length = s.objects.length := by
  unfold objectMoving
  split
  · simp [List.length_set]
  · rfl

theorem foldl_moving_length (i : Nat) (path : List (ℚ × ℚ)) (s : Scene) :
    (path.foldl (fun c p => objectMoving i p c) s).objects.length =
      s.objects.length := by
  induction path generalizing s with
  | nil => rfl
  | cons p ps ih =>
      show (ps.foldl _ (objectMoving i p s)).objects.length = _
      rw [ih (objectMoving i p s), objectMoving_length]

theorem objectMoving_getElem (i : Nat) (p : ℚ × ℚ) (s : Scene)
    (h : i < s.objects.length) :
    ((objectMoving i p s).objects[i]?).map (fun o => (o.left, o.top)) =
      some (snapCoord p.1, snapCoord p.2) := by
  rcases hg : s.objects[i]? with _ | o
  · rw [List.getElem?_eq_getElem h] at hg
    exact absurd hg (by simp)
  · unfold objectMoving
    rw [hg]
    show ((s.objects.set i _)[i]?).map _ = _
    rw [List.getElem?_set_eq_of_lt _ h]
    rfl

/-- C6: a drag of an existing object commits the position with both
coordinates snapped (with grid size 50: to a nearest multiple of 50, at most
25 away from the pointer's final position), records exactly one history
entry — the serialization of the final, snapped canvas — and no intermediate
unsnapped position of the drag is ever persisted to history. -/
theorem C6_drag_snaps (st : EditorState) (i : Nat) (path : List (ℚ × ℚ))
    (p : ℚ × ℚ) (h : i < st.canvas.objects.length) :
    ((dragObject i (path ++ [p]) st).canvas.objects[i]?).map
        (fun o => (o.left, o.top)) = some (snapCoord p.1, snapCoord p.2) ∧
      (dragObject i (path ++ [p]) st).history =
        toJSON (dragObject i (path ++ [p]) st).canvas :: st.history ∧
      (dragObject i (path ++ [p]) st).redoStack = [] ∧
      (∃ k : ℤ, snapCoord p.1 = (k : ℚ) * 50) ∧
      (∃ k : ℤ, snapCoord p.2 = (k : ℚ) * 50) ∧
      |p.1 - snapCoord p.1| ≤ 25 ∧ |p.2 - snapCoord p.2| ≤ 25 := by
  have hpos : ((dragObject i (path ++ [p]) st).canvas.objects[i]?).map
      (fun o => (o.left, o.top)) = some (snapCoord p.1, snapCoord p.2) := by
    show (((path ++ [p]).foldl (fun c q => objectMoving i q c)
        st.canvas).objects[i]?).map _ = _
    rw [List.foldl_append]
    exact objectMoving_getElem i p _ (by rw [foldl_moving_length]; exact h)
  refine ⟨hpos, rfl, rfl, snapCoord_multiple p.1, snapCoord_multiple p.2,
    ?_, ?_⟩
  · have := snapCoord_dist p.1
    norm_num [gridSize] at this
    exact this
  · have := snapCoord_dist p.2
    norm_num [gridSize] at this
    exact this

/-- A scene holding one rectangle at position (10, 10). -/
def demoDragState : EditorState :=
  { canvas := { objects := [{ newRect with left := 10, top := 10 }],
                background := "#ffffff", width := 800, height := 600 },
    history := [], redoStack := [], active := none }

theorem C6_witness :
    0 < demoDragState.canvas.objects.length ∧
      ((dragObject 0 [(30, 20), (47, 53)]
          demoDragState).canvas.objects[0]?).map (fun o => (o.left, o.top)) =
        some (50, 50) := by
  have h0 : 0 < demoDragState.canvas.objects.length := by
    simp [demoDragState]
  have h := C6_drag_snaps demoDragState 0 [(30, 20)] (47, 53) h0
  refine ⟨h0, ?_⟩
  refine h.1.trans ?_
  norm_num [snapCoord, jsRound, gridSize]

/-! ### Claim C8 -/

/-- C8 counterexample: an image import records two history entries, not one:
`canvas.add` fires `object:added` (whose handler calls `saveState`) and
`handleImageUpload` then calls `saveState` again. -/
theorem C8_cex_two_entries :
    (handleImageUpload 600 400 initState).history.length =
        initState.history.length + 2 ∧
      (handleImageUpload 600 400 initState).history.length ≠
        initState.history.length + 1 := by
  constructor
  · simp [handleImageUpload, canvasAdd, saveState]
  · intro heq
    simp [handleImageUpload, canvasAdd, saveState] at heq

/-- C8 (amended): importing an image of natural size `w × h` (with `w > 0`)
adds exactly one Image SceneObject, uniformly scaled so that its displayed
width is the fixed default 300 (preserving aspect ratio), and records two
identical history entries for the import (the `object:added` handler's
`saveState` plus the explicit one), not one. -/
theorem C8_image_upload (st : EditorState) (w h : ℚ) (hw : 0 < w) :
    (handleImageUpload w h st).canvas.objects =
        st.canvas.objects ++ [newImage w h] ∧
      (newImage w h).kind = ObjKind.image ∧
      (newImage w h).width * (newImage w h).scaleX = 300 ∧
      (newImage w h).scaleX = (newImage w h).scaleY ∧
      (handleImageUpload w h st).history =
        toJSON (handleImageUpload w h st).canvas ::
          toJSON (handleImageUpload w h st).canvas :: st.history := by
  refine ⟨rfl, rfl, ?_, rfl, rfl⟩
  show w * (300 / w) = 300
  field_simp

theorem C8_witness :
    (0 : ℚ) < 600 ∧
      (newImage 600 400).width * (newImage 600 400).scaleX = 300 ∧
      (handleImageUpload 600 400 initState).canvas.objects =
        initState.canvas.objects ++ [newImage 600 400] := by
  have h := C8_image_upload initState 600 400 (by norm_num)
  exact ⟨by norm_num, h.2.2.1, h.1⟩

/-! ### Claim C9 -/

/-- Whether `canvas.getActiveObject()` returns an object of type image. -/
def activeIsImage (st : EditorState) : Bool :=
  match st.active with
  | some i =>
      match st.canvas.objects[i]? with
      | some o => o.kind == ObjKind.image
      | none => false
  | none => false

theorem applyFilter_not_image {st : EditorState}
    (hfalse : activeIsImage st = false) (ft : String) :
    applyFilter ft st = st := by
  unfold applyFilter
  rcases ha : st.active with _ | i
  · rfl
  · rcases hg : st.canvas.objects[i]? with _ | o
    · simp only [hg]
    · have hk : (o.kind == ObjKind.image) = false := by
        simp only [activeIsImage, ha, hg] at hfalse
        exact hfalse
      simp only [hg]
      rw [if_neg (by simpa using hk)]

theorem applyFilter_active_image {st : EditorState} {i : Nat} {o : Obj}
    (ha : st.active = some i) (hg : st.canvas.objects[i]? = some o)
    (hk : o.kind = ObjKind.image) (ft : String) :
    applyFilter ft st = saveState { st with canvas :=
      { st.canvas with objects :=
        st.canvas.objects.set i (filteredObj ft o) } } := by
  unfold applyFilter
  simp only [ha, hg]
  rw [if_pos hk]

/-- C9: `applyFilter` mutates the canvas and records a new history snapshot
(also clearing the redo stack) only when the active object exists and has
type image — otherwise the whole editor state is unchanged — and when it
applies a known filter it replaces the object's entire filter list with that
single filter. -/
theorem C9_applyFilter_frame (st : EditorState) :
    (activeIsImage st = false → ∀ ft, applyFilter ft st = st) ∧
      (∀ i, st.active = some i → activeIsImage st = true →
        (∀ ft, (applyFilter ft st).history =
            toJSON (applyFilter ft st).canvas :: st.history ∧
          (applyFilter ft st).redoStack = []) ∧
        ((applyFilter "grayscale" st).canvas.objects[i]?).map Obj.filters =
          some [FilterKind.grayscale] ∧
        ((applyFilter "sepia" st).canvas.objects[i]?).map Obj.filters =
          some [FilterKind.sepia]) := by
  constructor
  · exact fun hfalse ft => applyFilter_not_image hfalse ft
  · intro i ha htrue
    rcases hg : st.canvas.objects[i]? with _ | o
    · exfalso
      simp only [activeIsImage, ha, hg] at htrue
      exact absurd htrue (by simp)
    · have hk : o.kind = ObjKind.image := by
        simp only [activeIsImage, ha, hg] at htrue
        simpa using htrue
      have hlt : i < st.canvas.objects.length := by
        by_contra hcon
        rw [List.getElem?_eq_none (Nat.le_of_not_lt hcon)] at hg
        exact absurd hg (by simp)
      refine ⟨?_, ?_, ?_⟩
      · intro ft
        rw [applyFilter_active_image ha hg hk ft]
        exact ⟨rfl, rfl⟩
      · rw [applyFilter_active_image ha hg hk "grayscale"]
        show ((st.canvas.objects.set i _)[i]?).map _ = _
        rw [List.getElem?_set_eq_of_lt _ hlt]
        simp [filteredObj]
      · rw [applyFilter_active_image ha hg hk "sepia"]
        show ((st.canvas.objects.set i _)[i]?).map _ = _
        rw [List.getElem?_set_eq_of_lt _ hlt]
        simp [filteredObj]

/-- A scene holding one imported image, currently selected. -/
def demoFilterScene : Scene :=
  { objects := [newImage 600 400], background := "#ffffff", width := 800,
    height := 600 }

def demoFilterState : EditorState :=
  { canvas := demoFilterScene, history := [toJSON demoFilterScene],
    redoStack := [], active := some 0 }

theorem C9_witness :
    demoFilterState.active = some 0 ∧
      activeIsImage demoFilterState = true ∧
      ((applyFilter "grayscale" demoFilterState).canvas.objects[0]?).map
        Obj.filters = some [FilterKind.grayscale] := by
  have h := (C9_applyFilter_frame demoFilterState).2 0 rfl rfl
  exact ⟨rfl, rfl, h.2.1⟩

/-! ### Claim C10 -/

theorem filter_exportable_gridLines (w h : ℚ) :
    (gridLines w h).filter exportable = [] := by
  apply List.filter_eq_nil_iff.mpr
  intro o ho
  rcases List.mem_append.mp ho with hv | hh
  · obtain ⟨i, _, rfl⟩ := List.mem_map.mp hv
    simp [exportable, gridLine]
  · obtain ⟨i, _, rfl⟩ := List.mem_map.mp hh
    simp [exportable, gridLine]

/-- C10: every grid line object created at canvas initialization carries
`selectable = false`, `evented = false` and `excludeFromExport = true`, so
grid lines can never enter the selection via pointer interaction, and the
serialized output produced by `saveProject` is the same with or without the
grid — the lines never appear in it. -/
theorem C10_grid_lines_inert (s : Scene) (o : Obj)
    (ho : o ∈ gridLines s.width s.height) :
    (o.selectable = false ∧ o.evented = false ∧
        o.excludeFromExport = true) ∧
      toJSON (drawGrid s) = toJSON s := by
  constructor
  · rcases List.mem_append.mp ho with hv | hh
    · obtain ⟨i, _, rfl⟩ := List.mem_map.mp hv
      exact ⟨rfl, rfl, rfl⟩
    · obtain ⟨i, _, rfl⟩ := List.mem_map.mp hh
      exact ⟨rfl, rfl, rfl⟩
  · unfold toJSON drawGrid
    rw [List.filter_append, filter_exportable_gridLines]
    rw [List.append_nil]

theorem C10_witness :
    gridLine 0 0 0 emptyScene.height ∈
        gridLines emptyScene.width emptyScene.height ∧
      (gridLine 0 0 0 emptyScene.height).selectable = false ∧
      (gridLine 0 0 0 emptyScene.height).excludeFromExport = true ∧
      toJSON (drawGrid emptyScene) = toJSON emptyScene := by
  have hmem : gridLine 0 0 0 emptyScene.height ∈
      gridLines emptyScene.width emptyScene.height := by
    unfold gridLines
    apply List.mem_append_left
    apply List.mem_map.mpr
    refine ⟨0, ?_, ?_⟩
    · unfold gridSteps
      rw [if_pos (by norm_num [emptyScene])]
      exact List.mem_range.mpr (Nat.succ_pos _)
    · norm_num [gridLine]
  have h := C10_grid_lines_inert emptyScene (gridLine 0 0 0 emptyScene.height)
    hmem
  exact ⟨hmem, h.1.1, h.1.2.2, h.2⟩

end PhotoEditor
